import Mathlib

/-!
Verification of the push-rule evaluation core of the synapse homeserver.

The repository tree holds the evaluator's test suite
(`tests/push/test_push_rule_evaluator.py`) and the relations servlet
(`synapse/rest/client/v2_alpha/relations.py`).  The evaluator itself
(`synapse.synapse_rust.push.PushRuleEvaluator`, `_flatten_dict`, the bulk
driver) is not part of the tree, so those components are modelled from the
natural-language specification; the servlet is embedded from its source.
-/

namespace Synapse

/-- Scalar JSON values kept by the flattener: strings, integers, booleans and
null. -/
inductive Scalar where
  | str (s : String)
  | int (n : Int)
  | bool (b : Bool)
  | null
deriving DecidableEq, Repr

/-- A JSON value as found in event content and condition records.  A floating
point number is carried as its literal text only: the push-rule core never
reads one (the flattener drops them), so no arithmetic on floats is modelled. -/
inductive JsonValue where
  | str (s : String)
  | int (n : Int)
  | bool (b : Bool)
  | null
  | float (lit : String)
  | list (xs : List JsonValue)
  | obj (fields : List (String × JsonValue))
deriving Repr

/-- A value of the flattened event map: a scalar or a list of scalars. -/
inductive FlatValue where
  | scalar (v : Scalar)
  | list (vs : List Scalar)
deriving DecidableEq, Repr

/-- First-match association-list lookup.  Python dictionaries have unique
keys, so taking the first hit models dictionary lookup. -/
def alistLookup {α : Type} (l : List (String × α)) (k : String) : Option α :=
  match l with
  | [] => none
  | (k2, v) :: rest => if k2 = k then some v else alistLookup rest k

/-- Look up a condition field and require it to be a JSON string. -/
def lookupStr (cond : List (String × JsonValue)) (k : String) : Option String :=
  match alistLookup cond k with
  | some (JsonValue.str s) => some s
  | _ => none

/-- Tokens of a compiled glob pattern. -/
inductive GlobTok where
  | lit (c : Char)
  | star
  | quest
deriving DecidableEq, Repr

/-- Modelled from the spec: glob compilation, shared by both dialects (§4.2,
§8 scenario 2; the evaluator source is absent from this tree).  Every pattern
character is handled independently: `*` matches any sequence of characters,
`?` matches exactly one, and any other character — a backslash included — is a
literal, so a backslash does not alter the meaning of a following wildcard
(§8 scenario 2 and `test_event_match_body`).  Literal characters are
lowercased here; the haystack is lowercased at comparison time, making the
match case-insensitive. -/
def parseGlob : List Char → List GlobTok
  | [] => []
  | c :: rest =>
    if c = '*' then GlobTok.star :: parseGlob rest
    else if c = '?' then GlobTok.quest :: parseGlob rest
    else GlobTok.lit c.toLower :: parseGlob rest

/-- Glob compilation as the claim text words it instead: a backslash before
`?` or `*` turns that wildcard into a literal and any other backslash is a
literal.  Used only to exhibit where this reading departs from the modelled
behaviour. -/
def parseGlobClaimed : List Char → List GlobTok
  | [] => []
  | [c] =>
    if c = '*' then [GlobTok.star]
    else if c = '?' then [GlobTok.quest]
    else [GlobTok.lit c.toLower]
  | c :: d :: rest =>
    if c = '\\' then
      if d = '*' then GlobTok.lit '*' :: parseGlobClaimed rest
      else if d = '?' then GlobTok.lit '?' :: parseGlobClaimed rest
      else GlobTok.lit '\\' :: parseGlobClaimed (d :: rest)
    else if c = '*' then GlobTok.star :: parseGlobClaimed (d :: rest)
    else if c = '?' then GlobTok.quest :: parseGlobClaimed (d :: rest)
    else GlobTok.lit c.toLower :: parseGlobClaimed (d :: rest)

/-- Does `f` accept some suffix of the list (the list itself and the empty
suffix included)? -/
def anySuffix (f : List Char → Bool) : List Char → Bool
  | [] => f []
  | x :: xs => f (x :: xs) || anySuffix f xs

/-- Modelled from the spec: the compiled matcher (§4.2).  `star` may swallow
any characters — the rest of the pattern must match some suffix — `quest`
exactly one character; a literal compares against the lowercased haystack
character. -/
def globMatch : List GlobTok → List Char → Bool
  | [], cs => cs.isEmpty
  | GlobTok.lit c :: ps, cs =>
    match cs with
    | [] => false
    | x :: xs => c == x.toLower && globMatch ps xs
  | GlobTok.quest :: ps, cs =>
    match cs with
    | [] => false
    | _ :: xs => globMatch ps xs
  | GlobTok.star :: ps, cs => anySuffix (globMatch ps) cs

/-- Word characters for boundary purposes: `[A-Za-z0-9_]` (spec §4.2). -/
def isWordChar (c : Char) : Bool :=
  ('a' ≤ c && c ≤ 'z') || ('A' ≤ c && c ≤ 'Z') || ('0' ≤ c && c ≤ '9') || c == '_'

/-- Wordness of the character at an index; out-of-range counts as non-word
(string edges behave like non-word characters). -/
def wordAt (cs : List Char) (i : Nat) : Bool :=
  match cs.get? i with
  | some c => isWordChar c
  | none => false

/-- A word boundary sits at a transition between word and non-word, with the
string edges counting as non-word (spec glossary). -/
def boundaryAt (cs : List Char) (i : Nat) : Bool :=
  (if i = 0 then false else wordAt cs (i - 1)) != wordAt cs i

/-- The slice of `len` characters starting at index `i`. -/
def sliceOf (cs : List Char) (i len : Nat) : List Char :=
  (cs.drop i).take len

/-- Modelled from the spec: the word-boundary substring dialect (§4.2), used
for `content.body`.  Some slice of the haystack, flanked on both sides by word
boundaries and free of newlines, must match the glob. -/
def matchesWordToks (toks : List GlobTok) (cs : List Char) : Bool :=
  (List.range (cs.length + 1)).any fun i =>
    (List.range (cs.length + 1 - i)).any fun len =>
      boundaryAt cs i && boundaryAt cs (i + len) &&
        !((sliceOf cs i len).contains '\n') && globMatch toks (sliceOf cs i len)

/-- Modelled from the spec: the anchored full-value dialect (§4.2), used for
every key other than `content.body`.  The glob must cover the whole haystack,
and a newline anywhere in the haystack defeats the match. -/
def matchesWholeToks (toks : List GlobTok) (cs : List Char) : Bool :=
  !(cs.contains '\n') && globMatch toks cs

/-- The word-boundary substring acceptance restated as a predicate: some slice
of the haystack is flanked by word boundaries, spans no newline, and is
matched by the glob. -/
def WordMatch (toks : List GlobTok) (cs : List Char) : Prop :=
  ∃ i len, i + len ≤ cs.length ∧ boundaryAt cs i = true ∧
    boundaryAt cs (i + len) = true ∧
    (sliceOf cs i len).contains '\n' = false ∧
    globMatch toks (sliceOf cs i len) = true

theorem matchesWordToks_iff (toks : List GlobTok) (cs : List Char) :
    matchesWordToks toks cs = true ↔ WordMatch toks cs := by
  unfold matchesWordToks WordMatch
  simp only [List.any_eq_true, List.mem_range, Bool.and_eq_true, Bool.not_eq_true']
  constructor
  · rintro ⟨i, hi, len, hlen, ⟨⟨h1, h2⟩, h3⟩, h4⟩
    exact ⟨i, len, by omega, h1, h2, h3, h4⟩
  · rintro ⟨i, len, hle, h1, h2, h3, h4⟩
    exact ⟨i, by omega, len, by omega, ⟨⟨h1, h2⟩, h3⟩, h4⟩

/-- Modelled from the spec: MSC3873 key escaping (§4.1): a backslash doubles
and a dot gains a leading backslash.  Processing character by character agrees
with performing the two textual replacements in sequence, since the first
replacement introduces no dots. -/
def escapeSegment (k : String) : String :=
  String.mk (k.data.flatMap fun c =>
    if c = '\\' then ['\\', '\\'] else if c = '.' then ['\\', '.'] else [c])

/-- Apply MSC3873 escaping to a key segment when the option is on. -/
def applyEscape (esc : Bool) (k : String) : String :=
  if esc then escapeSegment k else k

/-- Join prefix segments and a final key with the `.` path delimiter. -/
def dotPath (pre : List String) (key : String) : String :=
  String.intercalate "." (pre ++ [key])

/-- The scalar view of a JSON value: strings, integers, booleans and null;
anything else has none. -/
def scalarOfJson : JsonValue → Option Scalar
  | JsonValue.str s => some (Scalar.str s)
  | JsonValue.int n => some (Scalar.int n)
  | JsonValue.bool b => some (Scalar.bool b)
  | JsonValue.null => some Scalar.null
  | _ => none

mutual
/-- Modelled from the spec: per-leaf behaviour of `_flatten_dict` (§4.1).  A
scalar is inserted at the dot-joined path, a list keeps only its scalar
elements, a nested mapping recurses with the key appended to the prefix, and
anything else is dropped. -/
def flattenValue (esc : Bool) (pre : List String) (key : String) :
    JsonValue → List (String × FlatValue)
  | JsonValue.str s => [(dotPath pre key, FlatValue.scalar (Scalar.str s))]
  | JsonValue.int n => [(dotPath pre key, FlatValue.scalar (Scalar.int n))]
  | JsonValue.bool b => [(dotPath pre key, FlatValue.scalar (Scalar.bool b))]
  | JsonValue.null => [(dotPath pre key, FlatValue.scalar Scalar.null)]
  | JsonValue.float _ => []
  | JsonValue.list xs => [(dotPath pre key, FlatValue.list (xs.filterMap scalarOfJson))]
  | JsonValue.obj fields => flattenFields esc (pre ++ [key]) fields

/-- Modelled from the spec: `_flatten_dict` iterating the fields of one
mapping (§4.1), escaping each key segment when the MSC3873 option is on. -/
def flattenFields (esc : Bool) (pre : List String) :
    List (String × JsonValue) → List (String × FlatValue)
  | [] => []
  | (k, v) :: rest => flattenValue esc pre (applyEscape esc k) v ++ flattenFields esc pre rest
end

/-- Modelled from the spec: `_flatten_dict` (§4.1), over the top-level event
mapping.  `esc` is the `msc3873_escape_event_match_key` option. -/
def flatten_dict (esc : Bool) (d : List (String × JsonValue)) : List (String × FlatValue) :=
  flattenFields esc [] d

/-- Modelled from the spec: the per-event evaluator state (§3, §6): the
flattened event, the mention facts, the ambient room facts, the pre-flattened
related events, and the construction-time feature flags. -/
structure PushRuleEvaluator where
  flattened : List (String × FlatValue)
  has_mentions : Bool
  user_mentions : List String
  room_member_count : Nat
  sender_power_level : Int
  notification_power_levels : List (String × Int)
  related_events : List (String × List (String × FlatValue))
  related_event_match_enabled : Bool
  has_room_mention : Bool
  msc3758_exact_event_match : Bool
  msc3966_exact_event_property_contains : Bool

/-- Modelled from the spec: `event_match` (§4.3 item 1).  Both `key` and
`pattern` must be strings in the condition; the flattened value must be a
string; `content.body` selects the word-boundary dialect, every other key the
anchored full-value dialect. -/
def eventMatchCond (flat : List (String × FlatValue)) (cond : List (String × JsonValue)) : Bool :=
  match lookupStr cond "key", lookupStr cond "pattern" with
  | some k, some p =>
    match alistLookup flat k with
    | some (FlatValue.scalar (Scalar.str s)) =>
      if k = "content.body" then matchesWordToks (parseGlob p.data) s.data
      else matchesWholeToks (parseGlob p.data) s.data
    | _ => false
  | _, _ => false

/-- The display name compiled as a literal: every character is a literal
token, so glob and regex metacharacters have no effect. -/
def literalToks (s : String) : List GlobTok :=
  s.data.map (fun c => GlobTok.lit c.toLower)

/-- Modelled from the spec: `contains_display_name` (§4.3 item 2).  A missing
or blank display name never matches; the body must be a string in the
flattened event; the display name is matched as a literal under the
word-boundary dialect. -/
def containsDisplayNameCond (flat : List (String × FlatValue)) (displayName : Option String) : Bool :=
  match displayName with
  | none => false
  | some d =>
    if d = "" then false
    else
      match alistLookup flat "content.body" with
      | some (FlatValue.scalar (Scalar.str s)) => matchesWordToks (literalToks d) s.data
      | _ => false

/-- A digit character's value. -/
def digitVal (c : Char) : Option Nat :=
  if '0' ≤ c && c ≤ '9' then some (c.toNat - '0'.toNat) else none

/-- Accumulating decimal parse; fails on any non-digit. -/
def parseDecimalAux : List Char → Nat → Option Nat
  | [], acc => some acc
  | c :: rest, acc =>
    match digitVal c with
    | some d => parseDecimalAux rest (acc * 10 + d)
    | none => none

/-- Parse a non-empty all-digit string as a natural number. -/
def parseDecimal (cs : List Char) : Option Nat :=
  match cs with
  | [] => none
  | _ => parseDecimalAux cs 0

/-- Comparison operators accepted by `room_member_count`. -/
inductive CmpOp where
  | eq
  | lt
  | le
  | gt
  | ge
deriving DecidableEq, Repr

/-- Modelled from the spec: parsing the `is` field of `room_member_count`
(§4.3 item 3): an optional operator, defaulting to equality, then a decimal
count; anything malformed fails. -/
def parseMemberCountIs (s : String) : Option (CmpOp × Nat) :=
  match s.data with
  | '=' :: '=' :: rest => (parseDecimal rest).map (fun n => (CmpOp.eq, n))
  | '<' :: '=' :: rest => (parseDecimal rest).map (fun n => (CmpOp.le, n))
  | '>' :: '=' :: rest => (parseDecimal rest).map (fun n => (CmpOp.ge, n))
  | '<' :: rest => (parseDecimal rest).map (fun n => (CmpOp.lt, n))
  | '>' :: rest => (parseDecimal rest).map (fun n => (CmpOp.gt, n))
  | cs => (parseDecimal cs).map (fun n => (CmpOp.eq, n))

/-- Evaluate a member-count comparison. -/
def cmpNat : CmpOp → Nat → Nat → Bool
  | CmpOp.eq, a, b => a == b
  | CmpOp.lt, a, b => decide (a < b)
  | CmpOp.le, a, b => decide (a ≤ b)
  | CmpOp.gt, a, b => decide (a > b)
  | CmpOp.ge, a, b => decide (a ≥ b)

/-- Modelled from the spec: `room_member_count` (§4.3 item 3). -/
def roomMemberCountCond (count : Nat) (cond : List (String × JsonValue)) : Bool :=
  match lookupStr cond "is" with
  | none => false
  | some s =>
    match parseMemberCountIs s with
    | none => false
    | some (op, n) => cmpNat op count n

/-- Modelled from the spec: `sender_notification_permission` (§4.3 item 4):
the required level is the notification power for the condition's `key`,
defaulting to 50, and the sender's power level must reach it. -/
def senderNotificationPermissionCond (ev : PushRuleEvaluator)
    (cond : List (String × JsonValue)) : Bool :=
  match lookupStr cond "key" with
  | none => false
  | some k =>
    decide ((alistLookup ev.notification_power_levels k).getD 50 ≤ ev.sender_power_level)

/-- Modelled from the spec: `exact_event_match` (§4.3 item 7): the condition
value must be a scalar, the flattened value a scalar of the same type, and the
two equal, case-sensitively for strings, with no coercion. -/
def exactEventMatchCond (flat : List (String × FlatValue))
    (cond : List (String × JsonValue)) : Bool :=
  match lookupStr cond "key", alistLookup cond "value" with
  | some k, some v =>
    match scalarOfJson v, alistLookup flat k with
    | some sv, some (FlatValue.scalar fv) => sv == fv
    | _, _ => false
  | _, _ => false

/-- Modelled from the spec: `exact_event_property_contains` (§4.3 item 8): the
flattened value must be a list and some element must be equal-and-same-type to
the condition's scalar value. -/
def exactEventPropertyContainsCond (flat : List (String × FlatValue))
    (cond : List (String × JsonValue)) : Bool :=
  match lookupStr cond "key", alistLookup cond "value" with
  | some k, some v =>
    match scalarOfJson v, alistLookup flat k with
    | some sv, some (FlatValue.list vs) => vs.contains sv
    | _, _ => false
  | _, _ => false

/-- A related event is a reply fallback when `im.vector.is_falling_back` is
present and not the boolean false (§4.3 item 9). -/
def isFallbackRel (rel : List (String × FlatValue)) : Bool :=
  match alistLookup rel "im.vector.is_falling_back" with
  | none => false
  | some (FlatValue.scalar (Scalar.bool false)) => false
  | some _ => true

/-- The condition's `include_fallbacks` flag: true only when present as the
boolean true (§4.3 item 9: optional bool, default false). -/
def includeFallbacksOf (cond : List (String × JsonValue)) : Bool :=
  match alistLookup cond "include_fallbacks" with
  | some (JsonValue.bool b) => b
  | _ => false

/-- The anchored full-value glob test of a related event's value at `k`
against pattern `p`; a missing or non-string value never matches. -/
def relValueGlob (rel : List (String × FlatValue)) (k p : String) : Bool :=
  match alistLookup rel k with
  | some (FlatValue.scalar (Scalar.str s)) => matchesWholeToks (parseGlob p.data) s.data
  | _ => false

/-- Modelled from the spec: `related_event_match` (§4.3 item 9): look up the
relation, gate on reply fallbacks, then existence check or full-value glob. -/
def relatedEventMatchCond (relatedEvents : List (String × List (String × FlatValue)))
    (cond : List (String × JsonValue)) : Bool :=
  match lookupStr cond "rel_type" with
  | none => false
  | some rt =>
    match alistLookup relatedEvents rt with
    | none => false
    | some rel =>
      if isFallbackRel rel && !(includeFallbacksOf cond) then false
      else
        match lookupStr cond "key", lookupStr cond "pattern" with
        | none, none => true
        | some k, some p => relValueGlob rel k p
        | _, _ => false

/-- Modelled from the spec: the condition dispatcher (§4.3): a missing,
unknown or disabled kind is false; each known kind delegates to its handler.
The function is total, so no condition ever raises. -/
def PushRuleEvaluator.matches (ev : PushRuleEvaluator) (cond : List (String × JsonValue))
    (userId : String) (displayName : Option String) : Bool :=
  match lookupStr cond "kind" with
  | some "event_match" => eventMatchCond ev.flattened cond
  | some "contains_display_name" => containsDisplayNameCond ev.flattened displayName
  | some "room_member_count" => roomMemberCountCond ev.room_member_count cond
  | some "sender_notification_permission" => senderNotificationPermissionCond ev cond
  | some "org.matrix.msc3952.is_user_mention" => ev.has_mentions && ev.user_mentions.contains userId
  | some "org.matrix.msc3952.is_room_mention" => ev.has_mentions && ev.has_room_mention
  | some "com.beeper.msc3758.exact_event_match" =>
    ev.msc3758_exact_event_match && exactEventMatchCond ev.flattened cond
  | some "org.matrix.msc3966.exact_event_property_contains" =>
    ev.msc3966_exact_event_property_contains && exactEventPropertyContainsCond ev.flattened cond
  | some "im.nheko.msc3664.related_event_match" =>
    ev.related_event_match_enabled && relatedEventMatchCond ev.related_events cond
  | _ => false

/-- An evaluator over the flattening of an event whose content is `content`,
with every feature flag enabled and the given related events — mirroring the
construction used throughout the repository tests. -/
def mkEvaluator (content : List (String × JsonValue))
    (relatedEvents : List (String × List (String × FlatValue))) : PushRuleEvaluator :=
  { flattened := flatten_dict false [("content", JsonValue.obj content)]
    has_mentions := false
    user_mentions := []
    room_member_count := 0
    sender_power_level := 0
    notification_power_levels := []
    related_events := relatedEvents
    related_event_match_enabled := true
    has_room_mention := false
    msc3758_exact_event_match := true
    msc3966_exact_event_property_contains := true }

/-- An action list item: a plain string (`"notify"`, `"dont_notify"`,
`"coalesce"`) or a `set_tweak` mapping with an optional value (§4.4). -/
inductive Action where
  | string (s : String)
  | setTweak (name : String) (value : Option JsonValue)

/-- Insert into an association list, replacing an existing binding in place
and appending a fresh key at the end — Python dictionary assignment. -/
def alistInsert (l : List (String × JsonValue)) (k : String) (v : JsonValue) :
    List (String × JsonValue) :=
  match l with
  | [] => [(k, v)]
  | (k2, v2) :: rest => if k2 = k then (k, v) :: rest else (k2, v2) :: alistInsert rest k v

/-- Modelled from the spec: `tweaks_for_actions` (§4.4): each `set_tweak`
entry writes its value into the tweaks map, a missing value meaning `true`;
later entries for the same tweak win; plain strings contribute nothing. -/
def tweaks_for_actions (actions : List Action) : List (String × JsonValue) :=
  actions.foldl
    (fun acc a =>
      match a with
      | Action.setTweak name none => alistInsert acc name (JsonValue.bool true)
      | Action.setTweak name (some v) => alistInsert acc name v
      | Action.string _ => acc)
    []

/-- Modelled from the spec: the notify decision (§4.4): true iff the action
list contains the string "notify". -/
def notifyOfActions (actions : List Action) : Bool :=
  actions.any fun a =>
    match a with
    | Action.string s => s == "notify"
    | _ => false

/-- A push rule: an ordered condition list and its actions (§4.5 step 4). -/
structure PushRule where
  conditions : List (List (String × JsonValue))
  actions : List Action

/-- A staging row recording the outcome for one (event, user) (§4.5 step 5). -/
structure StagingRow where
  event_id : String
  user_id : String
  notify : Bool
  tweaks : List (String × JsonValue)

/-- Modelled from the spec: the candidate recipient set (§4.5 step 2): the
joined local members, minus application-service users (the registry's
regex-backed membership test is taken as a boolean-valued collaborator), minus
the sender. -/
def candidateUsers (joined : List String) (isAppserviceUser : String → Bool)
    (sender : String) : List String :=
  joined.filter fun u => !(isAppserviceUser u) && u != sender

/-- Modelled from the spec: rule selection (§4.5 step 4): the first rule whose
every condition evaluates true. -/
def firstMatchingRule (ev : PushRuleEvaluator) (uid : String) (dn : Option String)
    (rules : List PushRule) : Option PushRule :=
  rules.find? fun r => r.conditions.all fun c => ev.matches c uid dn

/-- Modelled from the spec: the bulk driver's staging pass for one event
(§4.5): filter the candidates by history visibility (a collaborator boolean),
pick each remaining user's first matching rule, and emit one staging row per
user with a non-empty outcome (notify or non-empty tweaks). -/
def bulkStagingRows (eventId : String) (joined : List String)
    (isAppserviceUser : String → Bool) (visible : String → Bool) (sender : String)
    (ruleStore : String → List PushRule) (displayNameOf : String → Option String)
    (ev : PushRuleEvaluator) : List StagingRow :=
  ((candidateUsers joined isAppserviceUser sender).filter visible).filterMap fun u =>
    match firstMatchingRule ev u (displayNameOf u) (ruleStore u) with
    | none => none
    | some r =>
      let n := notifyOfActions r.actions
      let tw := tweaks_for_actions r.actions
      if n || !tw.isEmpty then some ⟨eventId, u, n, tw⟩ else none

/-- The event dictionary handed to `create_and_send_nonmember_event`
(src/synapse/rest/client/v2_alpha/relations.py lines 104-109). -/
structure EventDict where
  type : String
  content : List (String × JsonValue)
  room_id : String
  sender : String
deriving Repr

/-- Outcome of one `send_relation` request: a `SynapseError` raised by the
handler itself, a body that `parse_json_object_from_request` rejected, or the
event dictionary reaching event creation. -/
inductive RelationSendOutcome where
  | errored (code : Nat) (msg : String)
  | bodyNotJson
  | created (dict : EventDict)
deriving Repr

/-- The `m.relates_to` aggregation record the servlet writes into the content
(src/synapse/rest/client/v2_alpha/relations.py lines 98-102); a missing `key`
query parameter becomes null. -/
def relatesTo (parentId relationType : String) (aggregationKey : Option String) : JsonValue :=
  JsonValue.obj
    [("event_id", JsonValue.str parentId),
     ("key", match aggregationKey with | some k => JsonValue.str k | none => JsonValue.null),
     ("rel_type", JsonValue.str relationType)]

/-- `RelationSendServlet.on_PUT_or_POST`
(src/synapse/rest/client/v2_alpha/relations.py lines 83-115), after a
successful authentication (the authenticated sender is a parameter).  A
member event type is rejected with a 400 `SynapseError` before the request
body is parsed; otherwise the body is parsed — `none` models a body that is
not a JSON object — `m.relates_to` is written into the content, and the event
dictionary is handed to event creation. -/
def on_PUT_or_POST (senderUser roomId parentId relationType eventType : String)
    (requestBody : Option (List (String × JsonValue))) (aggregationKey : Option String) :
    RelationSendOutcome :=
  if eventType = "m.room.member" then
    RelationSendOutcome.errored 400 "Cannot send member events with relations"
  else
    match requestBody with
    | none => RelationSendOutcome.bodyNotJson
    | some content =>
      RelationSendOutcome.created
        { type := eventType
          content := alistInsert content "m.relates_to"
            (relatesTo parentId relationType aggregationKey)
          room_id := roomId
          sender := senderUser }

/-! ## Reduction lemmas for the condition dispatcher -/

/-- An `event_match` condition reduces to the key lookup followed by the
dialect choice. -/
theorem matches_event_match (ev : PushRuleEvaluator) (uid : String) (dn : Option String)
    (k p : String) :
    ev.matches [("kind", JsonValue.str "event_match"), ("key", JsonValue.str k),
        ("pattern", JsonValue.str p)] uid dn
      = (match alistLookup ev.flattened k with
         | some (FlatValue.scalar (Scalar.str s)) =>
           if k = "content.body" then matchesWordToks (parseGlob p.data) s.data
           else matchesWholeToks (parseGlob p.data) s.data
         | _ => false) := rfl

/-- An `exact_event_match` condition reduces to the flag, the scalar view of
the condition value and the key lookup. -/
theorem matches_exact_event_match (ev : PushRuleEvaluator) (uid : String) (dn : Option String)
    (k : String) (v : JsonValue) :
    ev.matches [("kind", JsonValue.str "com.beeper.msc3758.exact_event_match"),
        ("key", JsonValue.str k), ("value", v)] uid dn
      = (ev.msc3758_exact_event_match &&
          (match scalarOfJson v, alistLookup ev.flattened k with
           | some sv, some (FlatValue.scalar fv) => sv == fv
           | _, _ => false)) := rfl

/-- An `exact_event_property_contains` condition reduces to the flag, the
scalar view of the condition value and the key lookup. -/
theorem matches_property_contains (ev : PushRuleEvaluator) (uid : String) (dn : Option String)
    (k : String) (v : JsonValue) :
    ev.matches [("kind", JsonValue.str "org.matrix.msc3966.exact_event_property_contains"),
        ("key", JsonValue.str k), ("value", v)] uid dn
      = (ev.msc3966_exact_event_property_contains &&
          (match scalarOfJson v, alistLookup ev.flattened k with
           | some sv, some (FlatValue.list vs) => vs.contains sv
           | _, _ => false)) := rfl

/-- A `contains_display_name` condition reduces to its handler. -/
theorem matches_contains_display_name (ev : PushRuleEvaluator) (uid : String)
    (dn : Option String) :
    ev.matches [("kind", JsonValue.str "contains_display_name")] uid dn
      = containsDisplayNameCond ev.flattened dn := rfl

/-- The `event_match` condition on `content.body` with pattern `p`. -/
def eventMatchBodyCond (p : String) : List (String × JsonValue) :=
  [("kind", JsonValue.str "event_match"), ("key", JsonValue.str "content.body"),
   ("pattern", JsonValue.str p)]

/-- The `event_match` condition on `content.value` with pattern `p`. -/
def eventMatchValueCond (p : String) : List (String × JsonValue) :=
  [("kind", JsonValue.str "event_match"), ("key", JsonValue.str "content.value"),
   ("pattern", JsonValue.str p)]

/-! ## The claims -/

/-- C1 (amended): for every event whose flattened map holds a string at
`content.body` and every pattern `p`, the condition
`{kind: event_match, key: content.body, pattern: p}` matches iff some
substring of the body, delimited on both sides by word boundaries (word
characters `[A-Za-z0-9_]`) and spanning no newline, matches `p`
case-insensitively, where `*` matches zero or more characters, `?` matches
exactly one character, and a backslash is an ordinary literal character — a
backslash before `?` or `*` does not make the wildcard literal (the backslash
matches itself and the wildcard keeps its meaning).  In particular pattern
"foobaz" matches body "aaa FoobaZ zzz" and matches neither "aa xFoobaZ yy"
nor "aa foobazx yy". -/
theorem event_match_body_word_boundary :
    (∀ (ev : PushRuleEvaluator) (uid : String) (dn : Option String) (p s : String),
        alistLookup ev.flattened "content.body" = some (FlatValue.scalar (Scalar.str s)) →
        (ev.matches (eventMatchBodyCond p) uid dn = true
          ↔ WordMatch (parseGlob p.data) s.data))
    ∧ (mkEvaluator [("body", JsonValue.str "aaa FoobaZ zzz")] []).matches
        (eventMatchBodyCond "foobaz") "@user:test" (some "display_name") = true
    ∧ (mkEvaluator [("body", JsonValue.str "aa xFoobaZ yy")] []).matches
        (eventMatchBodyCond "foobaz") "@user:test" (some "display_name") = false
    ∧ (mkEvaluator [("body", JsonValue.str "aa foobazx yy")] []).matches
        (eventMatchBodyCond "foobaz") "@user:test" (some "display_name") = false := by
  refine ⟨?_, by decide, by decide, by decide⟩
  intro ev uid dn p s h
  have hred : ev.matches (eventMatchBodyCond p) uid dn
      = matchesWordToks (parseGlob p.data) s.data := by
    rw [show eventMatchBodyCond p = [("kind", JsonValue.str "event_match"),
        ("key", JsonValue.str "content.body"), ("pattern", JsonValue.str p)] from rfl,
      matches_event_match, h]
    rfl
  rw [hred]
  exact matchesWordToks_iff _ _

/-- C1 counterexample: the escape rule as the claim states it fails on the
code.  With pattern "f\?obaz" against body "F\oobaz", the evaluator matches —
the backslash is literal and `?` keeps its wildcard meaning, exactly as the
repository test `test_event_match_body` asserts — while under the claim's
stated escape semantics (`parseGlobClaimed`, where a backslash before `?`
makes the `?` literal) no word-boundary substring of the body matches the
pattern, so the claimed equivalence is violated at this input. -/
theorem event_match_body_escape_counterexample :
    (mkEvaluator [("body", JsonValue.str "F\\oobaz")] []).matches
        (eventMatchBodyCond "f\\?obaz") "@user:test" (some "display_name") = true
    ∧ matchesWordToks (parseGlobClaimed "f\\?obaz".data) "F\\oobaz".data = false :=
  ⟨by decide, by decide⟩

/-- C1 witness: the amended equivalence instantiated at the claim's own
example, body "aaa FoobaZ zzz" and pattern "foobaz". -/
theorem event_match_body_word_boundary_witness :
    alistLookup (mkEvaluator [("body", JsonValue.str "aaa FoobaZ zzz")] []).flattened
        "content.body" = some (FlatValue.scalar (Scalar.str "aaa FoobaZ zzz"))
    ∧ ((mkEvaluator [("body", JsonValue.str "aaa FoobaZ zzz")] []).matches
          (eventMatchBodyCond "foobaz") "@user:test" (some "display_name") = true
        ↔ WordMatch (parseGlob "foobaz".data) "aaa FoobaZ zzz".data) :=
  ⟨by decide, event_match_body_word_boundary.1 _ "@user:test" (some "display_name")
      "foobaz" "aaa FoobaZ zzz" (by decide)⟩

/-- C2 (amended): for every event whose flattened map holds a string at a key
other than `content.body` and every pattern, the `event_match` condition
matches iff the entire value matches the pattern case-insensitively, anchored
at both ends of the whole string, under the same wildcard rules with the
backslash an ordinary literal (a backslash before `?` or `*` does not make
the wildcard literal); a haystack containing a newline never matches.  In
particular pattern "f?o*baz" on key "content.value" matches "FoobarbaZ" and
"foobaz" but matches none of "fobbaz", "x\nfooxbaz", "fooxbaz\nx". -/
theorem event_match_non_body_anchored :
    (∀ (ev : PushRuleEvaluator) (uid : String) (dn : Option String) (k p s : String),
        k ≠ "content.body" →
        alistLookup ev.flattened k = some (FlatValue.scalar (Scalar.str s)) →
        (ev.matches [("kind", JsonValue.str "event_match"), ("key", JsonValue.str k),
            ("pattern", JsonValue.str p)] uid dn = true
          ↔ (s.data.contains '\n' = false ∧ globMatch (parseGlob p.data) s.data = true)))
    ∧ (mkEvaluator [("value", JsonValue.str "FoobarbaZ")] []).matches
        (eventMatchValueCond "f?o*baz") "@user:test" (some "display_name") = true
    ∧ (mkEvaluator [("value", JsonValue.str "foobaz")] []).matches
        (eventMatchValueCond "f?o*baz") "@user:test" (some "display_name") = true
    ∧ (mkEvaluator [("value", JsonValue.str "fobbaz")] []).matches
        (eventMatchValueCond "f?o*baz") "@user:test" (some "display_name") = false
    ∧ (mkEvaluator [("value", JsonValue.str "x\nfooxbaz")] []).matches
        (eventMatchValueCond "f?o*baz") "@user:test" (some "display_name") = false
    ∧ (mkEvaluator [("value", JsonValue.str "fooxbaz\nx")] []).matches
        (eventMatchValueCond "f?o*baz") "@user:test" (some "display_name") = false := by
  refine ⟨?_, by decide, by decide, by decide, by decide, by decide⟩
  intro ev uid dn k p s hk h
  have hred : ev.matches [("kind", JsonValue.str "event_match"), ("key", JsonValue.str k),
      ("pattern", JsonValue.str p)] uid dn
      = matchesWholeToks (parseGlob p.data) s.data := by
    rw [matches_event_match, h]
    simp only [if_neg hk]
  rw [hred]
  simp [matchesWholeToks, Bool.and_eq_true, Bool.not_eq_true']

/-- C2 counterexample: the escape rule as the claim states it fails on the
code in the anchored full-value dialect as well.  With pattern "f\?obaz"
against value "F\oobaz" the evaluator matches (backslash literal, `?` a
wildcard), while the claim's stated escape semantics (`parseGlobClaimed`)
rejects the same whole-value match, so the claimed equivalence is violated at
this input. -/
theorem event_match_non_body_escape_counterexample :
    (mkEvaluator [("value", JsonValue.str "F\\oobaz")] []).matches
        (eventMatchValueCond "f\\?obaz") "@user:test" (some "display_name") = true
    ∧ matchesWholeToks (parseGlobClaimed "f\\?obaz".data) "F\\oobaz".data = false :=
  ⟨by decide, by decide⟩

/-- C2 witness: the amended equivalence instantiated at key "content.value",
value "FoobarbaZ" and pattern "f?o*baz". -/
theorem event_match_non_body_anchored_witness :
    "content.value" ≠ "content.body"
    ∧ alistLookup (mkEvaluator [("value", JsonValue.str "FoobarbaZ")] []).flattened
        "content.value" = some (FlatValue.scalar (Scalar.str "FoobarbaZ"))
    ∧ ((mkEvaluator [("value", JsonValue.str "FoobarbaZ")] []).matches
          [("kind", JsonValue.str "event_match"), ("key", JsonValue.str "content.value"),
            ("pattern", JsonValue.str "f?o*baz")] "@user:test" (some "display_name") = true
        ↔ ("FoobarbaZ".data.contains '\n' = false
            ∧ globMatch (parseGlob "f?o*baz".data) "FoobarbaZ".data = true)) :=
  ⟨by decide, by decide,
    event_match_non_body_anchored.1 _ "@user:test" (some "display_name") "content.value"
      "f?o*baz" "FoobarbaZ" (by decide) (by decide)⟩

/-- C3: key-bearing conditions never match and never error when the key they
refer to is absent from the flattened event, or when a required key is
missing from the condition record (`matches` is total, so no error can
surface); in particular `contains_display_name` is false when `content.body`
is absent or holds a non-string value such as 1, true, or a map (a map leaf
never sits at `content.body` after flattening, so that case reduces to
absence). -/
theorem conditions_missing_keys_no_match :
    (∀ (ev : PushRuleEvaluator) (uid : String) (dn : Option String) (k p : String),
        alistLookup ev.flattened k = none →
        ev.matches [("kind", JsonValue.str "event_match"), ("key", JsonValue.str k),
          ("pattern", JsonValue.str p)] uid dn = false)
    ∧ (∀ (ev : PushRuleEvaluator) (uid : String) (dn : Option String) (k : String)
        (v : JsonValue),
        alistLookup ev.flattened k = none →
        ev.matches [("kind", JsonValue.str "com.beeper.msc3758.exact_event_match"),
          ("key", JsonValue.str k), ("value", v)] uid dn = false)
    ∧ (∀ (ev : PushRuleEvaluator) (uid : String) (dn : Option String) (k : String)
        (v : JsonValue),
        alistLookup ev.flattened k = none →
        ev.matches [("kind", JsonValue.str "org.matrix.msc3966.exact_event_property_contains"),
          ("key", JsonValue.str k), ("value", v)] uid dn = false)
    ∧ (∀ (ev : PushRuleEvaluator) (uid : String) (dn : Option String),
        alistLookup ev.flattened "content.body" = none →
        ev.matches [("kind", JsonValue.str "contains_display_name")] uid dn = false)
    ∧ (∀ (ev : PushRuleEvaluator) (uid : String) (dn : Option String) (fv : FlatValue),
        alistLookup ev.flattened "content.body" = some fv →
        (∀ s, fv ≠ FlatValue.scalar (Scalar.str s)) →
        ev.matches [("kind", JsonValue.str "contains_display_name")] uid dn = false)
    ∧ (∀ (ev : PushRuleEvaluator) (uid : String) (dn : Option String) (p : String),
        ev.matches [("kind", JsonValue.str "event_match"), ("pattern", JsonValue.str p)]
          uid dn = false)
    ∧ (∀ (ev : PushRuleEvaluator) (uid : String) (dn : Option String) (k : String),
        ev.matches [("kind", JsonValue.str "event_match"), ("key", JsonValue.str k)]
          uid dn = false)
    ∧ (∀ (ev : PushRuleEvaluator) (uid : String) (dn : Option String),
        ev.matches [("kind", JsonValue.str "room_member_count")] uid dn = false)
    ∧ (∀ (ev : PushRuleEvaluator) (uid : String) (dn : Option String),
        ev.matches [("kind", JsonValue.str "sender_notification_permission")] uid dn = false)
    ∧ (∀ (ev : PushRuleEvaluator) (uid : String) (dn : Option String) (k p : String),
        ev.matches [("kind", JsonValue.str "im.nheko.msc3664.related_event_match"),
          ("key", JsonValue.str k), ("pattern", JsonValue.str p)] uid dn = false)
    ∧ (∀ (ev : PushRuleEvaluator) (uid : String) (dn : Option String) (k : String),
        ev.matches [("kind", JsonValue.str "com.beeper.msc3758.exact_event_match"),
          ("key", JsonValue.str k)] uid dn = false)
    ∧ (∀ (ev : PushRuleEvaluator) (uid : String) (dn : Option String) (k : String),
        ev.matches [("kind", JsonValue.str "org.matrix.msc3966.exact_event_property_contains"),
          ("key", JsonValue.str k)] uid dn = false)
    ∧ (mkEvaluator [] []).matches [("kind", JsonValue.str "contains_display_name")]
        "@user:test" (some "foo") = false
    ∧ (mkEvaluator [("body", JsonValue.int 1)] []).matches
        [("kind", JsonValue.str "contains_display_name")] "@user:test" (some "foo") = false
    ∧ (mkEvaluator [("body", JsonValue.bool true)] []).matches
        [("kind", JsonValue.str "contains_display_name")] "@user:test" (some "foo") = false
    ∧ (mkEvaluator [("body", JsonValue.obj [("foo", JsonValue.str "bar")])] []).matches
        [("kind", JsonValue.str "contains_display_name")] "@user:test" (some "foo") = false := by
  refine ⟨?_, ?_, ?_, ?_, ?_, ?_, ?_, ?_, ?_, ?_, ?_, ?_,
    by decide, by decide, by decide, by decide⟩
  · intro ev uid dn k p h
    rw [matches_event_match, h]
  · intro ev uid dn k v h
    rw [matches_exact_event_match, h]
    cases scalarOfJson v <;> simp
  · intro ev uid dn k v h
    rw [matches_property_contains, h]
    cases scalarOfJson v <;> simp
  · intro ev uid dn h
    rw [matches_contains_display_name]
    cases dn with
    | none => rfl
    | some d =>
      show (if d = "" then false
            else match alistLookup ev.flattened "content.body" with
              | some (FlatValue.scalar (Scalar.str s)) =>
                matchesWordToks (literalToks d) s.data
              | _ => false) = false
      by_cases hd : d = ""
      · simp [hd]
      · rw [if_neg hd, h]
  · intro ev uid dn fv h hns
    rw [matches_contains_display_name]
    cases dn with
    | none => rfl
    | some d =>
      show (if d = "" then false
            else match alistLookup ev.flattened "content.body" with
              | some (FlatValue.scalar (Scalar.str s)) =>
                matchesWordToks (literalToks d) s.data
              | _ => false) = false
      by_cases hd : d = ""
      · simp [hd]
      · rw [if_neg hd, h]
        cases fv with
        | scalar sv =>
          cases sv with
          | str s => exact absurd rfl (hns s)
          | int n => rfl
          | bool b => rfl
          | null => rfl
        | list vs => rfl
  · intro ev uid dn p
    rfl
  · intro ev uid dn k
    rfl
  · intro ev uid dn
    rfl
  · intro ev uid dn
    rfl
  · intro ev uid dn k p
    show (ev.related_event_match_enabled && false) = false
    rw [Bool.and_false]
  · intro ev uid dn k
    show (ev.msc3758_exact_event_match && false) = false
    rw [Bool.and_false]
  · intro ev uid dn k
    show (ev.msc3966_exact_event_property_contains && false) = false
    rw [Bool.and_false]

/-- C3 witness: an absent `content.body` defeats an `event_match` condition,
and a non-string body (the integer 1) defeats `contains_display_name`, each
via the theorem at a concrete evaluator. -/
theorem conditions_missing_keys_no_match_witness :
    (mkEvaluator [] []).matches [("kind", JsonValue.str "event_match"),
        ("key", JsonValue.str "content.body"), ("pattern", JsonValue.str "foobaz")]
      "@user:test" (some "foo") = false
    ∧ (mkEvaluator [("body", JsonValue.int 1)] []).matches
        [("kind", JsonValue.str "contains_display_name")] "@user:test" (some "foo") = false :=
  ⟨conditions_missing_keys_no_match.1 _ "@user:test" (some "foo") "content.body" "foobaz"
      (by decide),
    conditions_missing_keys_no_match.2.2.2.2.1 _ "@user:test" (some "foo")
      (FlatValue.scalar (Scalar.int 1)) (by decide) (fun s h => by cases h)⟩

/-- The `exact_event_match` condition on `content.value` with value `v`. -/
def exactCond (v : JsonValue) : List (String × JsonValue) :=
  [("kind", JsonValue.str "com.beeper.msc3758.exact_event_match"),
   ("key", JsonValue.str "content.value"), ("value", v)]

/-- C4: with the msc3758 flag enabled, an `exact_event_match` condition
matches iff the flattened event holds, at the condition's key, a scalar of
the same type as the condition's value and equal to it — no coercion,
case-sensitive for strings.  Condition value 1 matches field value 1 but none
of "1", true, 1.1 (dropped by the flattener, so the key is absent), null; and
condition value "foobaz" does not match field value "FoobaZ". -/
theorem exact_event_match_typed :
    (∀ (ev : PushRuleEvaluator) (uid : String) (dn : Option String) (k : String)
        (v : JsonValue),
        ev.msc3758_exact_event_match = true →
        (ev.matches [("kind", JsonValue.str "com.beeper.msc3758.exact_event_match"),
            ("key", JsonValue.str k), ("value", v)] uid dn = true
          ↔ ∃ sv, scalarOfJson v = some sv
              ∧ alistLookup ev.flattened k = some (FlatValue.scalar sv)))
    ∧ (mkEvaluator [("value", JsonValue.int 1)] []).matches
        (exactCond (JsonValue.int 1)) "@user:test" (some "display_name") = true
    ∧ (mkEvaluator [("value", JsonValue.str "1")] []).matches
        (exactCond (JsonValue.int 1)) "@user:test" (some "display_name") = false
    ∧ (mkEvaluator [("value", JsonValue.bool true)] []).matches
        (exactCond (JsonValue.int 1)) "@user:test" (some "display_name") = false
    ∧ (mkEvaluator [("value", JsonValue.float "1.1")] []).matches
        (exactCond (JsonValue.int 1)) "@user:test" (some "display_name") = false
    ∧ (mkEvaluator [("value", JsonValue.null)] []).matches
        (exactCond (JsonValue.int 1)) "@user:test" (some "display_name") = false
    ∧ (mkEvaluator [("value", JsonValue.str "FoobaZ")] []).matches
        (exactCond (JsonValue.str "foobaz")) "@user:test" (some "display_name") = false := by
  refine ⟨?_, by decide, by decide, by decide, by decide, by decide, by decide⟩
  intro ev uid dn k v hflag
  rw [matches_exact_event_match, hflag, Bool.true_and]
  cases hsv : scalarOfJson v with
  | none => simp [hsv]
  | some sv =>
    cases hfl : alistLookup ev.flattened k with
    | none => simp [hsv, hfl]
    | some fv =>
      cases fv with
      | scalar sv2 =>
        simp only [hsv, hfl, beq_iff_eq, Option.some.injEq, FlatValue.scalar.injEq]
        constructor
        · intro he
          exact ⟨sv2, he, rfl⟩
        · rintro ⟨sv3, h1, h2⟩
          exact h1.trans h2.symm
      | list vs => simp [hsv, hfl]

/-- C4 witness: the typed-equality equivalence instantiated at field value 1
and condition value 1. -/
theorem exact_event_match_typed_witness :
    (mkEvaluator [("value", JsonValue.int 1)] []).msc3758_exact_event_match = true
    ∧ ((mkEvaluator [("value", JsonValue.int 1)] []).matches
          (exactCond (JsonValue.int 1)) "@user:test" (some "display_name") = true
        ↔ ∃ sv, scalarOfJson (JsonValue.int 1) = some sv
            ∧ alistLookup (mkEvaluator [("value", JsonValue.int 1)] []).flattened
                "content.value" = some (FlatValue.scalar sv)) :=
  ⟨rfl, exact_event_match_typed.1 _ "@user:test" (some "display_name") "content.value"
      (JsonValue.int 1) rfl⟩

/-- C5: the decision structure of `related_event_match` with the feature
enabled: a missing relation entry is false; a reply-fallback relation with
`include_fallbacks` absent or false is false; past the fallback gate, neither
`key` nor `pattern` is an existence check (true), exactly one of them is
malformed (false), and both select the anchored full-value glob test of the
related event's value. -/
theorem related_event_match_decision :
    ∀ (ev : PushRuleEvaluator) (cond : List (String × JsonValue)) (uid : String)
      (dn : Option String) (r : String),
      ev.related_event_match_enabled = true →
      lookupStr cond "kind" = some "im.nheko.msc3664.related_event_match" →
      lookupStr cond "rel_type" = some r →
      ((alistLookup ev.related_events r = none → ev.matches cond uid dn = false)
      ∧ ∀ rel, alistLookup ev.related_events r = some rel →
        ((isFallbackRel rel = true ∧ includeFallbacksOf cond = false →
            ev.matches cond uid dn = false)
        ∧ ((isFallbackRel rel = true → includeFallbacksOf cond = true) →
          ((lookupStr cond "key" = none ∧ lookupStr cond "pattern" = none →
              ev.matches cond uid dn = true)
          ∧ (∀ k, lookupStr cond "key" = some k → lookupStr cond "pattern" = none →
              ev.matches cond uid dn = false)
          ∧ (∀ p, lookupStr cond "key" = none → lookupStr cond "pattern" = some p →
              ev.matches cond uid dn = false)
          ∧ (∀ k p, lookupStr cond "key" = some k → lookupStr cond "pattern" = some p →
              ev.matches cond uid dn = relValueGlob rel k p))))) := by
  intro ev cond uid dn r hen hkind hrel
  have hm : ev.matches cond uid dn
      = (ev.related_event_match_enabled && relatedEventMatchCond ev.related_events cond) := by
    unfold PushRuleEvaluator.matches
    rw [hkind]
    rfl
  rw [hen, Bool.true_and] at hm
  have hc : relatedEventMatchCond ev.related_events cond
      = (match alistLookup ev.related_events r with
         | none => false
         | some rel =>
           if isFallbackRel rel && !(includeFallbacksOf cond) then false
           else
             match lookupStr cond "key", lookupStr cond "pattern" with
             | none, none => true
             | some k, some p => relValueGlob rel k p
             | _, _ => false) := by
    unfold relatedEventMatchCond
    rw [hrel]
  rw [hc] at hm
  constructor
  · intro hnone
    rw [hm, hnone]
  · intro rel hsome
    have hm2 : ev.matches cond uid dn
        = (if isFallbackRel rel && !(includeFallbacksOf cond) then false
           else match lookupStr cond "key", lookupStr cond "pattern" with
            | none, none => true
            | some k, some p => relValueGlob rel k p
            | _, _ => false) := by
      rw [hm, hsome]
    constructor
    · rintro ⟨hfb, hif⟩
      rw [hm2, hfb, hif]
      rfl
    · intro hgate
      have hg : (isFallbackRel rel && !(includeFallbacksOf cond)) = false := by
        cases hfb : isFallbackRel rel with
        | false => rfl
        | true => simp [hgate hfb]
      rw [hg] at hm2
      rw [if_neg (by simp)] at hm2
      refine ⟨?_, ?_, ?_, ?_⟩
      · rintro ⟨h1, h2⟩
        rw [hm2, h1, h2]
      · intro k h1 h2
        rw [hm2, h1, h2]
      · intro p h1 h2
        rw [hm2, h1, h2]
      · intro k p h1 h2
        rw [hm2, h1, h2]

/-- The pre-flattened related event used in the C5 witness, as in
`test_related_event_match`. -/
def relForWitness : List (String × FlatValue) :=
  [("event_id", FlatValue.scalar (Scalar.str "$parent_event_id")),
   ("type", FlatValue.scalar (Scalar.str "m.room.message")),
   ("sender", FlatValue.scalar (Scalar.str "@other_user:test"))]

/-- The `related_event_match` condition with rel_type, key and pattern used in
the C5 witness. -/
def remCondKP : List (String × JsonValue) :=
  [("kind", JsonValue.str "im.nheko.msc3664.related_event_match"),
   ("rel_type", JsonValue.str "m.in_reply_to"),
   ("key", JsonValue.str "sender"), ("pattern", JsonValue.str "@other_user:test")]

/-- C5 witness: with key and pattern both given, the condition reduces to the
full-value glob test of the related event's sender. -/
theorem related_event_match_decision_witness :
    (mkEvaluator [] [("m.in_reply_to", relForWitness)]).matches remCondKP
        "@user:test" (some "display_name")
      = relValueGlob relForWitness "sender" "@other_user:test" :=
  (((related_event_match_decision (mkEvaluator [] [("m.in_reply_to", relForWitness)])
        remCondKP "@user:test" (some "display_name") "m.in_reply_to"
        rfl (by decide) (by decide)).2 relForWitness (by decide)).2
      (fun h => absurd h (by decide))).2.2.2 "sender" "@other_user:test"
    (by decide) (by decide)

/-- C6: flattening surfaces each nested-map leaf at the dot-joined path of
its ancestor keys (first conjunct: a nested mapping under key `k` flattens
exactly as its fields with `k`'s escaped form appended to the prefix), keeps
string/int/bool/null scalars and lists filtered to their scalar elements,
drops everything else, preserves dots in original keys by default, and under
the MSC3873 option escapes each key segment (backslash to double backslash,
dot to backslash-dot): the claim's example and the repository's
`test_non_string` example evaluate to exactly the expected maps. -/
theorem flatten_dict_spec :
    (∀ (esc : Bool) (pre : List String) (k : String) (fields : List (String × JsonValue)),
        flattenFields esc pre [(k, JsonValue.obj fields)]
          = flattenFields esc (pre ++ [applyEscape esc k]) fields)
    ∧ flatten_dict false [("m.foo", JsonValue.obj [("b\\ar", JsonValue.str "abc")])]
        = [("m.foo.b\\ar", FlatValue.scalar (Scalar.str "abc"))]
    ∧ flatten_dict true [("m.foo", JsonValue.obj [("b\\ar", JsonValue.str "abc")])]
        = [("m\\.foo.b\\\\ar", FlatValue.scalar (Scalar.str "abc"))]
    ∧ flatten_dict false
        [("woo", JsonValue.str "woo"), ("foo", JsonValue.bool true),
         ("bar", JsonValue.int 1), ("baz", JsonValue.null),
         ("fuzz", JsonValue.list [JsonValue.str "woo", JsonValue.bool true, JsonValue.int 1,
            JsonValue.null, JsonValue.list [], JsonValue.obj []]),
         ("boo", JsonValue.obj [])]
        = [("woo", FlatValue.scalar (Scalar.str "woo")),
           ("foo", FlatValue.scalar (Scalar.bool true)),
           ("bar", FlatValue.scalar (Scalar.int 1)),
           ("baz", FlatValue.scalar Scalar.null),
           ("fuzz", FlatValue.list [Scalar.str "woo", Scalar.bool true, Scalar.int 1,
              Scalar.null])] := by
  refine ⟨?_, by decide, by decide, by decide⟩
  intro esc pre k fields
  simp [flattenFields, flattenValue]

/-- C7: `contains_display_name` matches iff the display name is non-empty and
occurs in the event's `content.body` as a word-boundary-delimited substring,
the display name taken as a literal: "foo" matches body "foo bar baz", while
"", "ba" and "ba[rz]" do not. -/
theorem contains_display_name_spec :
    (∀ (ev : PushRuleEvaluator) (uid : String) (d s : String),
        alistLookup ev.flattened "content.body" = some (FlatValue.scalar (Scalar.str s)) →
        (ev.matches [("kind", JsonValue.str "contains_display_name")] uid (some d) = true
          ↔ (d ≠ "" ∧ WordMatch (literalToks d) s.data)))
    ∧ (mkEvaluator [("body", JsonValue.str "foo bar baz")] []).matches
        [("kind", JsonValue.str "contains_display_name")] "@user:test" (some "foo") = true
    ∧ (mkEvaluator [("body", JsonValue.str "foo bar baz")] []).matches
        [("kind", JsonValue.str "contains_display_name")] "@user:test" (some "") = false
    ∧ (mkEvaluator [("body", JsonValue.str "foo bar baz")] []).matches
        [("kind", JsonValue.str "contains_display_name")] "@user:test" (some "ba") = false
    ∧ (mkEvaluator [("body", JsonValue.str "foo bar baz")] []).matches
        [("kind", JsonValue.str "contains_display_name")] "@user:test"
        (some "ba[rz]") = false := by
  refine ⟨?_, by decide, by decide, by decide, by decide⟩
  intro ev uid d s h
  rw [matches_contains_display_name]
  show (if d = "" then false
        else match alistLookup ev.flattened "content.body" with
          | some (FlatValue.scalar (Scalar.str s)) => matchesWordToks (literalToks d) s.data
          | _ => false) = true
      ↔ (d ≠ "" ∧ WordMatch (literalToks d) s.data)
  by_cases hd : d = ""
  · simp [hd]
  · rw [if_neg hd, h]
    show matchesWordToks (literalToks d) s.data = true
        ↔ (d ≠ "" ∧ WordMatch (literalToks d) s.data)
    rw [matchesWordToks_iff]
    simp [hd]

/-- C7 witness: the equivalence instantiated at display name "foo" and body
"foo bar baz". -/
theorem contains_display_name_spec_witness :
    alistLookup (mkEvaluator [("body", JsonValue.str "foo bar baz")] []).flattened
        "content.body" = some (FlatValue.scalar (Scalar.str "foo bar baz"))
    ∧ ((mkEvaluator [("body", JsonValue.str "foo bar baz")] []).matches
          [("kind", JsonValue.str "contains_display_name")] "@user:test" (some "foo") = true
        ↔ ("foo" ≠ "" ∧ WordMatch (literalToks "foo") "foo bar baz".data)) :=
  ⟨by decide, contains_display_name_spec.1 _ "@user:test" "foo" "foo bar baz" (by decide)⟩

/-- The `exact_event_property_contains` condition on `content.value` with
value `v`. -/
def pcCond (v : JsonValue) : List (String × JsonValue) :=
  [("kind", JsonValue.str "org.matrix.msc3966.exact_event_property_contains"),
   ("key", JsonValue.str "content.value"), ("value", v)]

/-- C8: with the msc3966 flag enabled, an `exact_event_property_contains`
condition matches iff the flattened value at the key is a list containing an
element equal-and-same-type to the condition's scalar value, case-sensitively
for strings; a scalar at the key never matches.  Condition value "foobaz"
matches {value: ["foobaz", "bugz"]} but matches neither {value: ["FoobaZ"]}
nor {value: "foobaz"}. -/
theorem exact_event_property_contains_spec :
    (∀ (ev : PushRuleEvaluator) (uid : String) (dn : Option String) (k : String)
        (v : JsonValue),
        ev.msc3966_exact_event_property_contains = true →
        (ev.matches [("kind", JsonValue.str "org.matrix.msc3966.exact_event_property_contains"),
            ("key", JsonValue.str k), ("value", v)] uid dn = true
          ↔ ∃ sv vs, scalarOfJson v = some sv
              ∧ alistLookup ev.flattened k = some (FlatValue.list vs) ∧ sv ∈ vs))
    ∧ (mkEvaluator [("value", JsonValue.list [JsonValue.str "foobaz", JsonValue.str "bugz"])]
        []).matches (pcCond (JsonValue.str "foobaz")) "@user:test" (some "display_name") = true
    ∧ (mkEvaluator [("value", JsonValue.list [JsonValue.str "FoobaZ"])] []).matches
        (pcCond (JsonValue.str "foobaz")) "@user:test" (some "display_name") = false
    ∧ (mkEvaluator [("value", JsonValue.str "foobaz")] []).matches
        (pcCond (JsonValue.str "foobaz")) "@user:test" (some "display_name") = false := by
  refine ⟨?_, by decide, by decide, by decide⟩
  intro ev uid dn k v hflag
  rw [matches_property_contains, hflag, Bool.true_and]
  cases hsv : scalarOfJson v with
  | none => simp [hsv]
  | some sv =>
    cases hfl : alistLookup ev.flattened k with
    | none => simp [hsv, hfl]
    | some fv =>
      cases fv with
      | scalar sv2 => simp [hsv, hfl]
      | list vs => simp [hsv, hfl, List.elem_iff]

/-- C8 witness: the equivalence instantiated at field value
["foobaz", "bugz"] and condition value "foobaz". -/
theorem exact_event_property_contains_spec_witness :
    (mkEvaluator [("value", JsonValue.list [JsonValue.str "foobaz", JsonValue.str "bugz"])]
        []).msc3966_exact_event_property_contains = true
    ∧ ((mkEvaluator [("value", JsonValue.list [JsonValue.str "foobaz", JsonValue.str "bugz"])]
          []).matches (pcCond (JsonValue.str "foobaz")) "@user:test"
          (some "display_name") = true
        ↔ ∃ sv vs, scalarOfJson (JsonValue.str "foobaz") = some sv
            ∧ alistLookup (mkEvaluator [("value",
                JsonValue.list [JsonValue.str "foobaz", JsonValue.str "bugz"])] []).flattened
                "content.value" = some (FlatValue.list vs) ∧ sv ∈ vs) :=
  ⟨rfl, exact_event_property_contains_spec.1 _ "@user:test" (some "display_name")
      "content.value" (JsonValue.str "foobaz") rfl⟩

/-- C9: a joined user recognised as an application-service user is excluded
from the candidate set (so their rules are never fetched) and no staging row
is ever written for them, whatever the event, the visibility gating, the rule
store and the evaluator state. -/
theorem bulk_ignores_appservice_users :
    ∀ (eventId : String) (joined : List String) (isAppserviceUser visible : String → Bool)
      (sender : String) (ruleStore : String → List PushRule)
      (displayNameOf : String → Option String) (ev : PushRuleEvaluator) (u : String),
      u ∈ joined → isAppserviceUser u = true →
      (u ∉ candidateUsers joined isAppserviceUser sender
        ∧ ∀ row ∈ bulkStagingRows eventId joined isAppserviceUser visible sender ruleStore
            displayNameOf ev, row.user_id ≠ u) := by
  intro eventId joined isAS visible sender ruleStore dnOf ev u hj hAS
  constructor
  · intro hmem
    have hpred := (List.mem_filter.mp hmem).2
    simp [hAS] at hpred
  · intro row hrow heq
    rw [bulkStagingRows, List.mem_filterMap] at hrow
    obtain ⟨a, ha, hfa⟩ := hrow
    have ha2 : a ∈ candidateUsers joined isAS sender := (List.mem_filter.mp ha).1
    have hpred : (!(isAS a) && a != sender) = true := (List.mem_filter.mp ha2).2
    have huid : row.user_id = a := by
      split at hfa
      · exact Option.noConfusion hfa
      · rename_i r hr
        have hfa2 : (if (notifyOfActions r.actions || !(tweaks_for_actions r.actions).isEmpty)
              = true
            then some (StagingRow.mk eventId a (notifyOfActions r.actions)
              (tweaks_for_actions r.actions))
            else none) = some row := hfa
        by_cases hc : (notifyOfActions r.actions
            || !(tweaks_for_actions r.actions).isEmpty) = true
        · rw [if_pos hc] at hfa2
          cases hfa2
          rfl
        · rw [if_neg hc] at hfa2
          exact Option.noConfusion hfa2
    rw [huid] at heq
    rw [heq] at hpred
    simp [hAS] at hpred

/-- C9 witness: the exclusion instantiated at the test's scenario: a normal
sender, a joined appservice user matched by the registry, and a rule store
whose single rule always notifies. -/
theorem bulk_ignores_appservice_users_witness :
    ("@_as_user:test" ∈ ["@user:test", "@_as_user:test"]
      ∧ (fun v => v == "@_as_user:test") "@_as_user:test" = true)
    ∧ ("@_as_user:test" ∉ candidateUsers ["@user:test", "@_as_user:test"]
          (fun v => v == "@_as_user:test") "@user:test"
        ∧ ∀ row ∈ bulkStagingRows "$event_id" ["@user:test", "@_as_user:test"]
            (fun v => v == "@_as_user:test") (fun _ => true) "@user:test"
            (fun _ => [{ conditions := [], actions := [Action.string "notify"] }])
            (fun _ => none) (mkEvaluator [] []),
            row.user_id ≠ "@_as_user:test") :=
  ⟨⟨by decide, by decide⟩,
    bulk_ignores_appservice_users "$event_id" ["@user:test", "@_as_user:test"]
      (fun v => v == "@_as_user:test") (fun _ => true) "@user:test"
      (fun _ => [{ conditions := [], actions := [Action.string "notify"] }])
      (fun _ => none) (mkEvaluator [] []) "@_as_user:test" (by decide) (by decide)⟩

/-- C10: every send_relation request whose event_type is "m.room.member" is
rejected with a 400 SynapseError ("Cannot send member events with relations")
whatever the request body — the rejection precedes body parsing — and no
event dictionary ever reaches event creation; for every other event_type with
a parseable body the handler reaches event creation with the m.relates_to
aggregation written into the content. -/
theorem relation_send_member_rejected :
    (∀ (senderUser roomId parentId relationType : String)
        (requestBody : Option (List (String × JsonValue))) (aggregationKey : Option String),
        on_PUT_or_POST senderUser roomId parentId relationType "m.room.member"
            requestBody aggregationKey
          = RelationSendOutcome.errored 400 "Cannot send member events with relations")
    ∧ (∀ (senderUser roomId parentId relationType eventType : String)
        (content : List (String × JsonValue)) (aggregationKey : Option String),
        eventType ≠ "m.room.member" →
        on_PUT_or_POST senderUser roomId parentId relationType eventType
            (some content) aggregationKey
          = RelationSendOutcome.created
              { type := eventType
                content := alistInsert content "m.relates_to"
                  (relatesTo parentId relationType aggregationKey)
                room_id := roomId
                sender := senderUser }) := by
  constructor
  · intro senderUser roomId parentId relationType requestBody aggregationKey
    rfl
  · intro senderUser roomId parentId relationType eventType content aggregationKey het
    unfold on_PUT_or_POST
    rw [if_neg het]

/-- C10 witness: a reaction relation reaches event creation with the
m.relates_to record in place. -/
theorem relation_send_member_rejected_witness :
    on_PUT_or_POST "@user:test" "!foo:test" "$bar" "m.annotation" "m.reaction"
        (some [("body", JsonValue.str "hi")]) (some "key")
      = RelationSendOutcome.created
          { type := "m.reaction"
            content := alistInsert [("body", JsonValue.str "hi")] "m.relates_to"
              (relatesTo "$bar" "m.annotation" (some "key"))
            room_id := "!foo:test"
            sender := "@user:test" } :=
  relation_send_member_rejected.2 "@user:test" "!foo:test" "$bar" "m.annotation" "m.reaction"
    [("body", JsonValue.str "hi")] (some "key") (by decide)

end Synapse
